import Mathlib

/-!
Shallow embedding of the Lancilotto trading agent's core components, written
from the repository sources.  Floats are modelled as rationals (`ℚ`), Python
dicts as association lists or `Option`-valued functions, and the venue /
network responses that a method consumes are passed in as explicit
parameters.  Each section names the source file and function it embeds.
-/

namespace Lancilotto

/-! ## Risk manager (`src/risk_manager.py`) -/

/-- `RiskConfig` (src/risk_manager.py lines 14-25), field defaults included. -/
structure RiskConfig where
  maxDailyLossPct : ℚ := 5.0
  maxDailyLossUsd : ℚ := 500.0
  maxPositionPct : ℚ := 30.0
  maxTotalExposurePct : ℚ := 60.0
  defaultStopLossPct : ℚ := 2.0
  defaultTakeProfitPct : ℚ := 5.0
  minRrRatio : ℚ := 1.5
  maxConsecutiveLosses : ℕ := 3
  cooldownAfterLossesMinutes : ℕ := 30
  deriving Repr, DecidableEq

/-- `Position` dataclass (src/risk_manager.py lines 28-38).  `opened_at` is
kept as a rational UTC timestamp. -/
structure Position where
  symbol : String
  direction : String       -- "long" or "short"
  entryPrice : ℚ
  size : ℚ
  leverage : ℤ
  stopLossPrice : ℚ
  takeProfitPrice : ℚ
  openedAt : ℚ := 0
  deriving Repr, DecidableEq

/-- `Position.check_exit_conditions` (src/risk_manager.py lines 56-73):
stop-loss is tested before take-profit, direction-aware. -/
def Position.checkExitConditions (p : Position) (currentPrice : ℚ) : Option String :=
  if p.direction = "long" then
    if currentPrice ≤ p.stopLossPrice then some "stop_loss"
    else if currentPrice ≥ p.takeProfitPrice then some "take_profit"
    else none
  else
    if currentPrice ≥ p.stopLossPrice then some "stop_loss"
    else if currentPrice ≤ p.takeProfitPrice then some "take_profit"
    else none

/-- `Position.calculate_pnl` (src/risk_manager.py lines 75-82). -/
def Position.calculatePnl (p : Position) (currentPrice : ℚ) : ℚ :=
  (if p.direction = "long" then currentPrice - p.entryPrice
   else p.entryPrice - currentPrice) * p.size

/-- Mutable state of `RiskManager` (src/risk_manager.py lines 94-101).
The positions dict is an association list keyed by symbol. -/
structure RiskState where
  positions : List (String × Position)
  dailyPnl : ℚ
  consecutiveLosses : ℕ
  lastLossTime : Option ℚ
  isCircuitBreakerActive : Bool
  deriving Repr, DecidableEq

/-- The sizing dict returned by `calculate_position_size`. -/
structure SizingResult where
  sizeUsd : ℚ
  effectivePortion : ℚ
  riskUsd : ℚ
  deriving Repr, DecidableEq

/-- `RiskManager.calculate_position_size` (src/risk_manager.py lines 164-208).
Pure: it reads only `config.max_position_pct` from state. -/
def calculatePositionSize (cfg : RiskConfig) (balanceUsd requestedPortion stopLossPct : ℚ) :
    SizingResult :=
  let maxRiskPerTrade : ℚ := 0.02
  let riskAmount := balanceUsd * maxRiskPerTrade
  let positionSizeFromRisk :=
    if stopLossPct > 0 then (riskAmount / stopLossPct) * 100
    else balanceUsd * requestedPortion
  let maxPosition := balanceUsd * (cfg.maxPositionPct / 100)
  let requestedSize := balanceUsd * requestedPortion
  let finalSize := min requestedSize (min positionSizeFromRisk maxPosition)
  let effectivePortion := if balanceUsd > 0 then finalSize / balanceUsd else 0
  { sizeUsd := finalSize, effectivePortion := effectivePortion, riskUsd := riskAmount }

/-- `RiskManager.register_position` (src/risk_manager.py lines 210-248):
computes SL/TP prices from the entry price and percentages, stores the
position under its symbol and returns it.  `now` stands for
`datetime.now(timezone.utc)`. -/
def registerPosition (st : RiskState) (symbol direction : String)
    (entryPrice size : ℚ) (leverage : ℤ) (stopLossPct takeProfitPct : ℚ) (now : ℚ) :
    RiskState × Position :=
  let stopLossPrice :=
    if direction = "long" then entryPrice * (1 - stopLossPct / 100)
    else entryPrice * (1 + stopLossPct / 100)
  let takeProfitPrice :=
    if direction = "long" then entryPrice * (1 + takeProfitPct / 100)
    else entryPrice * (1 - takeProfitPct / 100)
  let position : Position :=
    { symbol := symbol, direction := direction, entryPrice := entryPrice,
      size := size, leverage := leverage, stopLossPrice := stopLossPrice,
      takeProfitPrice := takeProfitPrice, openedAt := now }
  ({ st with positions := (symbol, position) :: st.positions.filter (fun q => q.1 ≠ symbol) },
   position)

/-- One entry of the `to_close` list built by `check_positions`
(src/risk_manager.py lines 272-280). -/
structure ExitEvent where
  symbol : String
  direction : String
  reason : String
  entryPrice : ℚ
  exitPrice : ℚ
  pnl : ℚ
  position : Position
  deriving Repr, DecidableEq

/-- `RiskManager.check_positions` (src/risk_manager.py lines 250-287).  The
price dict is an `Option`-valued function; positions whose symbol is absent
are skipped (`continue`).  The method only reads state, so the state is
returned unchanged alongside the `to_close` list. -/
def checkPositions (st : RiskState) (currentPrices : String → Option ℚ) :
    RiskState × List ExitEvent :=
  (st,
   st.positions.filterMap (fun sp =>
     match currentPrices sp.1 with
     | none => none
     | some currentPrice =>
       match sp.2.checkExitConditions currentPrice with
       | none => none
       | some exitReason =>
         some { symbol := sp.1, direction := sp.2.direction, reason := exitReason,
                entryPrice := sp.2.entryPrice, exitPrice := currentPrice,
                pnl := sp.2.calculatePnl currentPrice, position := sp.2 }))

/-- `RiskManager.record_trade_result` (src/risk_manager.py lines 289-304).
`now` stands for `datetime.now(timezone.utc)`. -/
def recordTradeResult (st : RiskState) (pnl : ℚ) (now : ℚ) : RiskState :=
  let st1 := { st with dailyPnl := st.dailyPnl + pnl }
  if pnl < 0 then
    { st1 with consecutiveLosses := st1.consecutiveLosses + 1, lastLossTime := some now }
  else
    { st1 with consecutiveLosses := 0 }

/-- `RiskManager.remove_position` (src/risk_manager.py lines 306-311):
deletes the symbol's entry from the positions dict when present. -/
def removePosition (st : RiskState) (symbol : String) : RiskState :=
  { st with positions := st.positions.filter (fun q => q.1 ≠ symbol) }

/-! ## Screener scoring (`src/backend/coin_screener/scoring.py`) -/

/-- `CoinScorer._calculate_adx_strength` (scoring.py lines 299-324).  The
method consults only `coin.adx_14` (an optional float), so it is embedded as
a function of that field. -/
def calculateAdxStrength (adx14 : Option ℚ) : ℚ :=
  match adx14 with
  | none => 0.5
  | some adx =>
    if adx < 20 then 0.3
    else if adx < 25 then 0.5
    else if adx < 40 then 0.8
    else 1.0

/-! ## Screener rebalance schedule (`src/backend/coin_screener/screener.py`) -/

/-- A UTC instant: whole days since 1970-01-01 (which was a Thursday) plus
seconds within the day (`sec < 86400` for every real datetime). -/
structure UTCTime where
  day : ℕ
  sec : ℕ
  deriving Repr, DecidableEq

/-- Python `datetime.weekday()`: Monday = 0 … Sunday = 6.  Day 0
(1970-01-01) is a Thursday, weekday 3. -/
def UTCTime.weekday (t : UTCTime) : ℕ := (t.day + 3) % 7

/-- Total seconds since the epoch, for comparing instants. -/
def UTCTime.toSeconds (t : UTCTime) : ℕ := 86400 * t.day + t.sec

/-- `CoinScreener._calculate_next_rebalance` (screener.py lines 346-364):
`days_until_sunday = (6 - weekday) % 7`, mapped to 7 when 0, then
`current_time + timedelta(days=…)` with the time-of-day replaced by
00:00:00. -/
def calculateNextRebalance (currentTime : UTCTime) : UTCTime :=
  let daysUntilSunday0 := (6 - currentTime.weekday) % 7
  let daysUntilSunday := if daysUntilSunday0 = 0 then 7 else daysUntilSunday0
  { day := currentTime.day + daysUntilSunday, sec := 0 }

/-! ## Trend confirmation (`src/backend/trend_confirmation.py`) -/

/-- `TrendDirection` enum (trend_confirmation.py lines 20-26). -/
inductive TrendDirection
  | strongBullish | bullish | neutral | bearish | strongBearish
  deriving Repr, DecidableEq

/-- `TrendQuality` enum (trend_confirmation.py lines 29-35). -/
inductive TrendQuality
  | excellent | good | moderate | poor | invalid
  deriving Repr, DecidableEq

/-- Membership in `[TrendDirection.BULLISH, TrendDirection.STRONG_BULLISH]`. -/
def TrendDirection.isBullishSide : TrendDirection → Bool
  | .bullish | .strongBullish => true
  | _ => false

/-- Membership in `[TrendDirection.BEARISH, TrendDirection.STRONG_BEARISH]`. -/
def TrendDirection.isBearishSide : TrendDirection → Bool
  | .bearish | .strongBearish => true
  | _ => false

/-- `TrendConfirmationEngine._calculate_alignment` (trend_confirmation.py
lines 312-375): counts bullish-side and bearish-side timeframes among
(daily, hourly, 15m) and derives (direction, quality, confidence). -/
def calculateAlignment (daily hourly m15 : TrendDirection) :
    TrendDirection × TrendQuality × ℚ :=
  let directions := [daily, hourly, m15]
  let bullishCount := directions.countP (fun d => d.isBullishSide)
  let bearishCount := directions.countP (fun d => d.isBearishSide)
  let direction :=
    if bullishCount ≥ 2 then
      if bullishCount = 3 then TrendDirection.strongBullish else TrendDirection.bullish
    else if bearishCount ≥ 2 then
      if bearishCount = 3 then TrendDirection.strongBearish else TrendDirection.bearish
    else TrendDirection.neutral
  let qc : TrendQuality × ℚ :=
    if bullishCount = 3 ∨ bearishCount = 3 then (TrendQuality.excellent, 0.95)
    else if bullishCount = 2 ∨ bearishCount = 2 then
      if (daily.isBullishSide && hourly.isBullishSide)
          || (daily.isBearishSide && hourly.isBearishSide) then
        (TrendQuality.good, 0.80)
      else (TrendQuality.moderate, 0.65)
    else (TrendQuality.poor, 0.40)
  (direction, qc.1, qc.2)

/-- `config['min_confidence']` (trend_confirmation.py line 95). -/
def minConfidenceDefault : ℚ := 0.6

/-- `TrendConfirmationEngine._should_trade` (trend_confirmation.py lines
377-408).  `rsiSignal` is the hourly dict's `rsi_signal` string
("normal", "overbought", "oversold" or "unknown"). -/
def shouldTrade (quality : TrendQuality) (confidence : ℚ) (rsiSignal : String) : Bool :=
  if quality = TrendQuality.poor ∨ quality = TrendQuality.invalid then false
  else if confidence < minConfidenceDefault then false
  else if (rsiSignal = "overbought" ∨ rsiSignal = "oversold")
          ∧ quality ≠ TrendQuality.excellent then false
  else true

/-- Exactly two of three boolean flags hold (used to state "exactly two
timeframes agree" on a directional camp). -/
def exactlyTwo (a b c : Bool) : Bool :=
  (a && b && !c) || (a && !b && c) || (!a && b && c)

/-! ## Market data aggregator (`src/backend/market_data/aggregator.py`) -/

/-- The numeric fields of one source's response dict that
`_calculate_aggregates` reads; `none` models an absent key. -/
structure SourceData where
  price : Option ℚ
  volume24h : Option ℚ
  fundingRate : Option ℚ
  deriving Repr, DecidableEq

/-- One entry of `[hl_data] + providers_data.values()`: either a dict
carrying an `"error"` key (or a non-dict), which the loop skips, or a data
dict. -/
inductive SrcResult
  | err
  | ok (d : SourceData)
  deriving Repr, DecidableEq

/-- Python truthiness filter applied to each numeric field: a present value
of exactly 0 is falsy and is not collected. -/
def truthyNum : Option ℚ → Option ℚ
  | some v => if v = 0 then none else some v
  | none => none

/-- The `prices` / `volumes` / `funding_rates` lists built by the collection
loop (aggregator.py lines 229-252). -/
def collectField (f : SourceData → Option ℚ) (sources : List SrcResult) : List ℚ :=
  sources.filterMap (fun s =>
    match s with
    | .err => none
    | .ok d => truthyNum (f d))

/-- All values a field carries across the successful sources, zero values
included.  This is the spec's notion of the "reported" values, used to
compare against the code's truthiness-filtered collection. -/
def reportedField (f : SourceData → Option ℚ) (sources : List SrcResult) : List ℚ :=
  sources.filterMap (fun s =>
    match s with
    | .err => none
    | .ok d => f d)

/-- The aggregate dict returned by `_calculate_aggregates` when at least one
price was collected. -/
structure Aggregates where
  averagePrice : ℚ
  minPrice : ℚ
  maxPrice : ℚ
  priceSpreadPct : ℚ
  totalVolumeGlobal : ℚ
  averageFundingRate : ℚ
  sourcesCount : ℕ
  hyperliquidDeviationPct : Option ℚ
  isHyperliquidPremium : Option Bool
  deriving Repr, DecidableEq

/-- `MarketDataAggregator._calculate_aggregates` (aggregator.py lines
222-278).  `none` is the `{status: insufficient_data}` return. -/
def calculateAggregates (hlData : SrcResult) (providersData : List SrcResult) :
    Option Aggregates :=
  let allSources := hlData :: providersData
  let prices := collectField (fun d => d.price) allSources
  let volumes := collectField (fun d => d.volume24h) allSources
  let fundingRates := collectField (fun d => d.fundingRate) allSources
  if prices = [] then none
  else
    let avgPrice := prices.sum / prices.length
    let totalVolume := volumes.sum
    let avgFunding := if fundingRates = [] then 0 else fundingRates.sum / fundingRates.length
    let minP := prices.min?.getD 0
    let maxP := prices.max?.getD 0
    let hlDeviation : Option ℚ :=
      match hlData with
      | .ok d =>
        match d.price with
        | some hp => if avgPrice > 0 then some ((hp - avgPrice) / avgPrice * 100) else none
        | none => none
      | .err => none
    some { averagePrice := avgPrice, minPrice := minP, maxPrice := maxP,
           priceSpreadPct := if minP > 0 then (maxP - minP) / minP * 100 else 0,
           totalVolumeGlobal := totalVolume, averageFundingRate := avgFunding,
           sourcesCount := prices.length,
           hyperliquidDeviationPct := hlDeviation,
           isHyperliquidPremium := hlDeviation.map (fun dev => decide (dev > 0)) }

instance : Std.Antisymm (fun x1 x2 : ℚ => x1 ≤ x2) :=
  ⟨fun h1 h2 => le_antisymm h1 h2⟩

/-! ## Scout rotation (`src/backend/trading_engine.py`) -/

/-- Candidate list for scouting (trading_engine.py lines 321-322): the
selected symbols with the held ones removed. -/
def scoutCandidates (selected held : List String) : List String :=
  selected.filter (fun s => !held.contains s)

/-- The rotation step of `trading_cycle` (trading_engine.py lines 327-340):
from `rotation_index` and `batch_size`, slice the candidate list with
wrap-around and advance the stored index.  Returns (batch, new index);
when `candidates` is empty neither is touched. -/
def scoutRotation (candidates : List String) (rotationIndex batchSize : ℕ) :
    List String × ℕ :=
  if candidates.isEmpty then ([], rotationIndex)
  else
    let len := candidates.length
    let startIdx := rotationIndex % len
    let endIdx := startIdx + batchSize
    let batch :=
      if endIdx ≤ len then (candidates.drop startIdx).take batchSize
      else candidates.drop startIdx ++ candidates.take (endIdx - len)
    (batch, (startIdx + batchSize) % len)

/-- Modelled from the spec: `candidates[i..i+batch_size]` "with modular
wrap-around", i.e. the `batchSize` elements at cyclic indices
`startIdx, startIdx+1, …` of the candidate list. -/
def modularBatch (candidates : List String) (startIdx batchSize : ℕ) : List String :=
  (List.range batchSize).map (fun j => candidates.getD ((startIdx + j) % candidates.length) "")

/-! ## Execution adapter, close branch (`src/backend/hyperliquid_trader.py`) -/

/-- One entry of `get_account_status()["open_positions"]` (the fields the
close branch reads). -/
structure VenuePosition where
  symbol : String
  size : ℚ
  side : String
  deriving Repr, DecidableEq

/-- The shapes `exchange.market_close` can return: `None` (library quirk),
a `{"status": "err", …}` dict, or a success payload. -/
inductive MarketCloseResult
  | nothing
  | errRes
  | okRes
  deriving Repr, DecidableEq

/-- The position-matching test of the close branch (hyperliquid_trader.py
line 577): exact symbol or substring in either direction. -/
def symbolMatches (posSymbol symbol : String) : Bool :=
  posSymbol = symbol || decide (List.IsInfix symbol.data posSymbol.data)
    || decide (List.IsInfix posSymbol.data symbol.data)

/-- The `for pos in open_positions … break` search (hyperliquid_trader.py
lines 573-579). -/
def findMatchingPosition (openPositions : List VenuePosition) (symbol : String) :
    Option VenuePosition :=
  openPositions.find? (fun pos => symbolMatches pos.symbol symbol)

/-- The `op == "close"` branch of
`HyperLiquidTrader.execute_signal_with_risk` (hyperliquid_trader.py lines
566-672).  Venue responses are passed in: `openPositions` is what
`get_account_status` reports (the retry fetch of the alternate-close path
is modelled as seeing the same list), `marketCloseResult` the venue's
answer to `market_close`, and `altOpenOk` whether the opposite-side
`market_open` of the alternate close succeeds.  Returns the new risk state
and the result's `status` string. -/
def executeCloseWithRisk (openPositions : List VenuePosition)
    (marketCloseResult : MarketCloseResult) (altOpenOk : Bool)
    (st : RiskState) (symbol : String) : RiskState × String :=
  match findMatchingPosition openPositions symbol with
  | none => (removePosition st symbol, "skipped")
  | some matching =>
    match marketCloseResult with
    | .nothing =>
      match openPositions.find? (fun pos => pos.symbol = matching.symbol) with
      | some _ =>
        if altOpenOk then (removePosition st symbol, "ok")
        else (st, "error")
      | none => (st, "error")
    | .errRes => (st, "error")
    | .okRes => (removePosition st symbol, "ok")

/-! ## Theorems -/

/-- C10: in `record_trade_result`, only a strictly negative pnl increments
`consecutive_losses` and updates `last_loss_time`; every pnl ≥ 0 (including
an exactly break-even trade) resets `consecutive_losses` to 0 and leaves
`last_loss_time` untouched; in both cases `daily_pnl` grows by exactly the
pnl. -/
theorem recordTradeResult_spec (st : RiskState) (pnl now : ℚ) :
    (recordTradeResult st pnl now).dailyPnl = st.dailyPnl + pnl ∧
    (recordTradeResult st pnl now).consecutiveLosses =
      (if pnl < 0 then st.consecutiveLosses + 1 else 0) ∧
    (recordTradeResult st pnl now).lastLossTime =
      (if pnl < 0 then some now else st.lastLossTime) := by
  unfold recordTradeResult
  by_cases h : pnl < 0 <;> simp [h]

/-- C7: the `adx_strength` factor is 0.3 for ADX < 20, 0.5 on [20, 25),
0.8 on [25, 40) and 1.0 for ADX ≥ 40; the boundary inputs 20, 25 and 40
score 0.5, 0.8, 1.0 respectively, and a missing ADX scores the neutral
0.5. -/
theorem adxStrength_spec (a : ℚ) :
    (a < 20 → calculateAdxStrength (some a) = 0.3) ∧
    (20 ≤ a → a < 25 → calculateAdxStrength (some a) = 0.5) ∧
    (25 ≤ a → a < 40 → calculateAdxStrength (some a) = 0.8) ∧
    (40 ≤ a → calculateAdxStrength (some a) = 1.0) ∧
    calculateAdxStrength none = 0.5 ∧
    calculateAdxStrength (some 20) = 0.5 ∧
    calculateAdxStrength (some 25) = 0.8 ∧
    calculateAdxStrength (some 40) = 1.0 := by
  refine ⟨fun h => ?_, fun h1 h2 => ?_, fun h1 h2 => ?_, fun h1 => ?_, ?_, ?_, ?_, ?_⟩
  · simp [calculateAdxStrength, h]
  · simp [calculateAdxStrength, not_lt.mpr h1, h2]
  · have h20 : ¬ a < 20 := not_lt.mpr (by linarith)
    simp [calculateAdxStrength, h20, not_lt.mpr h1, h2]
  · have h20 : ¬ a < 20 := not_lt.mpr (by linarith)
    have h25 : ¬ a < 25 := not_lt.mpr (by linarith)
    have h40 : ¬ a < 40 := not_lt.mpr (by linarith)
    simp [calculateAdxStrength, h20, h25, h40]
  · rfl
  · norm_num [calculateAdxStrength]
  · norm_num [calculateAdxStrength]
  · norm_num [calculateAdxStrength]

/-- Witness for C7 at concrete inputs in each band. -/
theorem adxStrength_spec_witness :
    calculateAdxStrength (some 10) = 0.3 ∧ calculateAdxStrength (some 22) = 0.5 ∧
    calculateAdxStrength (some 30) = 0.8 ∧ calculateAdxStrength (some 50) = 1.0 :=
  ⟨(adxStrength_spec 10).1 (by norm_num),
   (adxStrength_spec 22).2.1 (by norm_num) (by norm_num),
   (adxStrength_spec 30).2.2.1 (by norm_num) (by norm_num),
   (adxStrength_spec 50).2.2.2.1 (by norm_num)⟩

/-- C2: for balance B > 0, `calculate_position_size` returns
final size = min(B·p, (0.02·B/s)·100, B·max_position_pct/100) when the
stop-loss percentage s is positive, with effective_portion = final/B and
risk_usd = 0.02·B; for s = 0 the risk-based term degenerates to the
requested size B·p, so the final size is min(B·p, B·max_position_pct/100). -/
theorem calculatePositionSize_spec (cfg : RiskConfig) (B p s : ℚ) (hB : 0 < B) :
    (0 < s →
      (calculatePositionSize cfg B p s).sizeUsd =
        min (B * p) (min ((0.02 * B / s) * 100) (B * (cfg.maxPositionPct / 100)))) ∧
    (s = 0 →
      (calculatePositionSize cfg B p s).sizeUsd =
        min (B * p) (B * (cfg.maxPositionPct / 100))) ∧
    (calculatePositionSize cfg B p s).effectivePortion =
      (calculatePositionSize cfg B p s).sizeUsd / B ∧
    (calculatePositionSize cfg B p s).riskUsd = 0.02 * B := by
  unfold calculatePositionSize
  refine ⟨fun hs => ?_, fun hs => ?_, ?_, ?_⟩
  · simp only [if_pos hs]
    ring_nf
  · subst hs
    simp only [lt_irrefl, if_neg (lt_irrefl 0), if_false]
    rw [← min_assoc, min_self]
  · simp [hB]
  · ring

/-- Witness for C2: B = 1000, p = 0.1, s = 2 with the default config gives
final size min(100, min(1000, 300)) = 100. -/
theorem calculatePositionSize_spec_witness :
    (calculatePositionSize {} 1000 (1/10) 2).sizeUsd = 100 := by
  have h := (calculatePositionSize_spec {} 1000 (1/10) 2 (by norm_num)).1 (by norm_num)
  rw [h]
  norm_num

/-- C3: a position created by `register_position` with positive entry price,
stop-loss percentage and take-profit percentage satisfies
stop_loss_price < entry_price < take_profit_price for direction long, and
take_profit_price < entry_price < stop_loss_price otherwise. -/
theorem registerPosition_spec (st : RiskState) (symbol direction : String)
    (entry size : ℚ) (lev : ℤ) (slPct tpPct now : ℚ)
    (hE : 0 < entry) (hS : 0 < slPct) (hT : 0 < tpPct) :
    (direction = "long" →
      (registerPosition st symbol direction entry size lev slPct tpPct now).2.stopLossPrice <
        (registerPosition st symbol direction entry size lev slPct tpPct now).2.entryPrice ∧
      (registerPosition st symbol direction entry size lev slPct tpPct now).2.entryPrice <
        (registerPosition st symbol direction entry size lev slPct tpPct now).2.takeProfitPrice) ∧
    (direction ≠ "long" →
      (registerPosition st symbol direction entry size lev slPct tpPct now).2.takeProfitPrice <
        (registerPosition st symbol direction entry size lev slPct tpPct now).2.entryPrice ∧
      (registerPosition st symbol direction entry size lev slPct tpPct now).2.entryPrice <
        (registerPosition st symbol direction entry size lev slPct tpPct now).2.stopLossPrice) := by
  unfold registerPosition
  constructor
  · intro h
    simp only [if_pos h]
    constructor <;> nlinarith [mul_pos hE hS, mul_pos hE hT]
  · intro h
    simp only [if_neg h]
    constructor <;> nlinarith [mul_pos hE hS, mul_pos hE hT]

/-- Witness for C3: a long BTC position at entry 50000 with SL 2% and TP 5%
has SL price below and TP price above the entry. -/
theorem registerPosition_spec_witness :
    (registerPosition ⟨[], 0, 0, none, false⟩ "BTC" "long" 50000 (6/1000) 3 2 5 0).2.stopLossPrice <
      (registerPosition ⟨[], 0, 0, none, false⟩ "BTC" "long" 50000 (6/1000) 3 2 5 0).2.entryPrice ∧
    (registerPosition ⟨[], 0, 0, none, false⟩ "BTC" "long" 50000 (6/1000) 3 2 5 0).2.entryPrice <
      (registerPosition ⟨[], 0, 0, none, false⟩ "BTC" "long" 50000 (6/1000) 3 2 5 0).2.takeProfitPrice :=
  (registerPosition_spec ⟨[], 0, 0, none, false⟩ "BTC" "long" 50000 (6/1000) 3 2 5 0
    (by norm_num) (by norm_num) (by norm_num)).1 rfl

/-- C9: `check_positions` is read-only on the risk state (registry, daily
pnl, consecutive losses and circuit-breaker flag are returned unchanged);
every emitted exit event concerns a symbol present in the price map, so a
tracked position with no price produces no event; and a price satisfying
the stop-loss and take-profit conditions simultaneously yields the single
reason "stop_loss" because the stop-loss line is checked first. -/
theorem checkPositions_spec (st : RiskState) (prices : String → Option ℚ) :
    (checkPositions st prices).1 = st ∧
    (∀ e ∈ (checkPositions st prices).2, prices e.symbol ≠ none) ∧
    (∀ (p : Position) (price : ℚ),
      (p.direction = "long" → price ≤ p.stopLossPrice → p.takeProfitPrice ≤ price →
        p.checkExitConditions price = some "stop_loss") ∧
      (p.direction ≠ "long" → p.stopLossPrice ≤ price → price ≤ p.takeProfitPrice →
        p.checkExitConditions price = some "stop_loss")) := by
  refine ⟨rfl, ?_, ?_⟩
  · intro e he
    simp only [checkPositions, List.mem_filterMap] at he
    obtain ⟨sp, _, hsp⟩ := he
    cases hp : prices sp.1 with
    | none => rw [hp] at hsp; simp at hsp
    | some price =>
      rw [hp] at hsp
      cases hx : sp.2.checkExitConditions price with
      | none => simp [hx] at hsp
      | some r =>
        simp only [hx, Option.some.injEq] at hsp
        rw [← hsp]
        simp [hp]
  · intro p price
    constructor
    · intro hdir hsl _
      simp [Position.checkExitConditions, hdir, hsl]
    · intro hdir hsl _
      simp [Position.checkExitConditions, hdir, hsl]

/-- Witness for C9: a degenerate long position whose stop-loss line (10)
lies above its take-profit line (5) exits with reason "stop_loss" at price
7, which satisfies both conditions. -/
theorem checkPositions_spec_witness :
    Position.checkExitConditions
      { symbol := "BTC", direction := "long", entryPrice := 8, size := 1,
        leverage := 1, stopLossPrice := 10, takeProfitPrice := 5, openedAt := 0 } 7 =
      some "stop_loss" :=
  ((checkPositions_spec ⟨[], 0, 0, none, false⟩ (fun _ => none)).2.2
    { symbol := "BTC", direction := "long", entryPrice := 8, size := 1,
      leverage := 1, stopLossPrice := 10, takeProfitPrice := 5, openedAt := 0 } 7).1
    rfl (by norm_num) (by norm_num)

/-- C4: for every current instant (with a valid time-of-day), the computed
`next_rebalance` is strictly after the current instant, falls on a Sunday
(Python weekday 6), has time-of-day exactly 00:00 UTC, and when the current
day is itself a Sunday the result is one week later. -/
theorem nextRebalance_spec (t : UTCTime) (h : t.sec < 86400) :
    t.toSeconds < (calculateNextRebalance t).toSeconds ∧
    (calculateNextRebalance t).weekday = 6 ∧
    (calculateNextRebalance t).sec = 0 ∧
    (t.weekday = 6 → (calculateNextRebalance t).day = t.day + 7) := by
  simp only [calculateNextRebalance, UTCTime.weekday, UTCTime.toSeconds]
  have hlt : (t.day + 3) % 7 < 7 := Nat.mod_lt _ (by norm_num)
  have heq : (6 - (t.day + 3) % 7) % 7 = 6 - (t.day + 3) % 7 := Nat.mod_eq_of_lt (by omega)
  rw [heq]
  split <;> exact ⟨by omega, by omega, by trivial, fun _ => by omega⟩

/-- Witness for C4: from Thursday 1970-01-01 01:00 UTC (day 0, second
3600), the next rebalance is day 3 (Sunday 1970-01-04) at second 0. -/
theorem nextRebalance_spec_witness :
    (⟨0, 3600⟩ : UTCTime).toSeconds < (calculateNextRebalance ⟨0, 3600⟩).toSeconds ∧
    (calculateNextRebalance ⟨0, 3600⟩).weekday = 6 ∧
    (calculateNextRebalance ⟨0, 3600⟩).sec = 0 :=
  let h := nextRebalance_spec ⟨0, 3600⟩ (by norm_num)
  ⟨h.1, h.2.1, h.2.2.1⟩

/-- C1 counterexample: a `close` decision for "BTC" when the venue reports
no open positions returns status "skipped" but does **not** leave the Risk
Manager's registry unchanged: the tracked "BTC" entry is deleted. -/
theorem executeClose_counterexample :
    (executeCloseWithRisk [] .okRes false
      ⟨[("BTC", { symbol := "BTC", direction := "long", entryPrice := 100, size := 1,
                  leverage := 1, stopLossPrice := 98, takeProfitPrice := 105, openedAt := 0 })],
        0, 0, none, false⟩ "BTC").2 = "skipped" ∧
    (executeCloseWithRisk [] .okRes false
      ⟨[("BTC", { symbol := "BTC", direction := "long", entryPrice := 100, size := 1,
                  leverage := 1, stopLossPrice := 98, takeProfitPrice := 105, openedAt := 0 })],
        0, 0, none, false⟩ "BTC").1.positions = [] ∧
    (⟨[("BTC", { symbol := "BTC", direction := "long", entryPrice := 100, size := 1,
                 leverage := 1, stopLossPrice := 98, takeProfitPrice := 105, openedAt := 0 })],
        0, 0, none, false⟩ : RiskState).positions ≠ [] := by
  refine ⟨rfl, rfl, ?_⟩
  simp

/-- C1 (amended): a `close` for a symbol with no matching open position on
the venue returns status "skipped" and removes the symbol from the Risk
Manager's position registry; the daily statistics (daily pnl, consecutive
losses, last loss time, circuit breaker) are unchanged, and the registry
itself is unchanged exactly when the symbol was not tracked. -/
theorem executeClose_noMatch (openPositions : List VenuePosition)
    (mcr : MarketCloseResult) (alt : Bool) (st : RiskState) (symbol : String)
    (h : findMatchingPosition openPositions symbol = none) :
    executeCloseWithRisk openPositions mcr alt st symbol =
      (removePosition st symbol, "skipped") ∧
    (removePosition st symbol).dailyPnl = st.dailyPnl ∧
    (removePosition st symbol).consecutiveLosses = st.consecutiveLosses ∧
    (removePosition st symbol).lastLossTime = st.lastLossTime ∧
    (removePosition st symbol).isCircuitBreakerActive = st.isCircuitBreakerActive ∧
    ((∀ q ∈ st.positions, q.1 ≠ symbol) → removePosition st symbol = st) := by
  refine ⟨?_, rfl, rfl, rfl, rfl, ?_⟩
  · unfold executeCloseWithRisk
    rw [h]
  · intro hq
    unfold removePosition
    have : st.positions.filter (fun q => q.1 ≠ symbol) = st.positions :=
      List.filter_eq_self.mpr (fun a ha => by simpa using hq a ha)
    rw [this]

/-- Witness for C1 (amended): with no venue positions and an untracked
symbol the close is a genuine no-op returning "skipped". -/
theorem executeClose_noMatch_witness :
    executeCloseWithRisk [] .nothing false ⟨[], 0, 0, none, false⟩ "ETH" =
      (removePosition ⟨[], 0, 0, none, false⟩ "ETH", "skipped") ∧
    removePosition (⟨[], 0, 0, none, false⟩ : RiskState) "ETH" = ⟨[], 0, 0, none, false⟩ :=
  let h := executeClose_noMatch [] .nothing false ⟨[], 0, 0, none, false⟩ "ETH" rfl
  ⟨h.1, h.2.2.2.2.2 (by simp)⟩

/-- Helper: the `should_trade` decision, for the (quality, confidence)
pairs that `_calculate_alignment` can produce, matches the spec's
three-condition characterization. -/
theorem shouldTrade_characterization (q : TrendQuality) (c : ℚ) (rsi : String)
    (hq : (q = TrendQuality.excellent ∧ c = 0.95) ∨ (q = TrendQuality.good ∧ c = 0.80) ∨
      (q = TrendQuality.moderate ∧ c = 0.65) ∨ (q = TrendQuality.poor ∧ c = 0.40)) :
    (shouldTrade q c rsi = true ↔
      (q = TrendQuality.excellent ∨ q = TrendQuality.good ∨ q = TrendQuality.moderate) ∧
      minConfidenceDefault ≤ c ∧
      (¬(rsi = "overbought" ∨ rsi = "oversold") ∨ q = TrendQuality.excellent)) := by
  by_cases hrsi : rsi = "overbought" ∨ rsi = "oversold" <;>
    rcases hq with ⟨hq, hc⟩ | ⟨hq, hc⟩ | ⟨hq, hc⟩ | ⟨hq, hc⟩ <;> subst hq <;> subst hc <;>
    norm_num [shouldTrade, minConfidenceDefault, hrsi] <;> decide

/-- C5 counterexample: with daily = hourly = 15m = neutral, all three
per-timeframe directions are equal (so "all three directions agree"), yet
`_calculate_alignment` yields quality poor with confidence 0.40, not
excellent with 0.95 as the claim requires. -/
theorem trendAlignment_counterexample :
    (calculateAlignment TrendDirection.neutral TrendDirection.neutral
        TrendDirection.neutral).2.1 = TrendQuality.poor ∧
    (calculateAlignment TrendDirection.neutral TrendDirection.neutral
        TrendDirection.neutral).2.2 = 0.40 ∧
    (calculateAlignment TrendDirection.neutral TrendDirection.neutral
        TrendDirection.neutral).2.1 ≠ TrendQuality.excellent ∧
    (calculateAlignment TrendDirection.neutral TrendDirection.neutral
        TrendDirection.neutral).2.2 ≠ 0.95 := by
  refine ⟨by decide, rfl, by decide, ?_⟩
  have hval : (calculateAlignment TrendDirection.neutral TrendDirection.neutral
      TrendDirection.neutral).2.2 = 0.40 := rfl
  rw [hval]
  norm_num

/-- C5 (amended): "agreement" counts timeframes sharing a bullish or
bearish camp (strong and plain variants together); neutral timeframes
never count as agreeing.  All three in one directional camp → excellent,
0.95; exactly two in one directional camp with daily and hourly in a
common directional camp → good, 0.80; exactly two in one directional camp
otherwise → moderate, 0.65; every other combination (including all three
neutral) → poor, 0.40.  `should_trade` is true iff quality ∈ {excellent,
good, moderate}, confidence ≥ 0.60, and the hourly RSI is not
overbought/oversold or the quality is excellent. -/
theorem trendAlignment_spec (d h m : TrendDirection) (rsi : String) :
    (((d.isBullishSide && h.isBullishSide && m.isBullishSide)
        || (d.isBearishSide && h.isBearishSide && m.isBearishSide)) = true →
      (calculateAlignment d h m).2.1 = TrendQuality.excellent ∧
      (calculateAlignment d h m).2.2 = 0.95) ∧
    ((exactlyTwo d.isBullishSide h.isBullishSide m.isBullishSide
        || exactlyTwo d.isBearishSide h.isBearishSide m.isBearishSide) = true →
      ((d.isBullishSide && h.isBullishSide) || (d.isBearishSide && h.isBearishSide)) = true →
      (calculateAlignment d h m).2.1 = TrendQuality.good ∧
      (calculateAlignment d h m).2.2 = 0.80) ∧
    ((exactlyTwo d.isBullishSide h.isBullishSide m.isBullishSide
        || exactlyTwo d.isBearishSide h.isBearishSide m.isBearishSide) = true →
      ((d.isBullishSide && h.isBullishSide) || (d.isBearishSide && h.isBearishSide)) = false →
      (calculateAlignment d h m).2.1 = TrendQuality.moderate ∧
      (calculateAlignment d h m).2.2 = 0.65) ∧
    (((d.isBullishSide && h.isBullishSide && m.isBullishSide)
        || (d.isBearishSide && h.isBearishSide && m.isBearishSide)) = false →
      (exactlyTwo d.isBullishSide h.isBullishSide m.isBullishSide
        || exactlyTwo d.isBearishSide h.isBearishSide m.isBearishSide) = false →
      (calculateAlignment d h m).2.1 = TrendQuality.poor ∧
      (calculateAlignment d h m).2.2 = 0.40) ∧
    (shouldTrade (calculateAlignment d h m).2.1 (calculateAlignment d h m).2.2 rsi = true ↔
      ((calculateAlignment d h m).2.1 = TrendQuality.excellent ∨
        (calculateAlignment d h m).2.1 = TrendQuality.good ∨
        (calculateAlignment d h m).2.1 = TrendQuality.moderate) ∧
      minConfidenceDefault ≤ (calculateAlignment d h m).2.2 ∧
      (¬(rsi = "overbought" ∨ rsi = "oversold") ∨
        (calculateAlignment d h m).2.1 = TrendQuality.excellent)) := by
  cases d <;> cases h <;> cases m <;>
    refine ⟨fun hh => ?_, fun hh1 hh2 => ?_, fun hh1 hh2 => ?_, fun hh1 hh2 => ?_,
      shouldTrade_characterization _ _ rsi ?_⟩ <;>
    first
    | exact ⟨rfl, rfl⟩
    | exact Or.inl ⟨rfl, rfl⟩
    | exact Or.inr (Or.inl ⟨rfl, rfl⟩)
    | exact Or.inr (Or.inr (Or.inl ⟨rfl, rfl⟩))
    | exact Or.inr (Or.inr (Or.inr ⟨rfl, rfl⟩))
    | exact absurd hh (by decide)
    | exact absurd hh1 (by decide)
    | exact absurd hh2 (by decide)

/-- Witness for C5 at one input in each quality band (hourly RSI normal):
all-bullish → excellent, two bullish with daily-hourly aligned → good, two
bullish with neutral daily → moderate, one-each → poor. -/
theorem trendAlignment_spec_witness :
    ((calculateAlignment TrendDirection.bullish TrendDirection.strongBullish
        TrendDirection.bullish).2.1 = TrendQuality.excellent ∧
      (calculateAlignment TrendDirection.bullish TrendDirection.strongBullish
        TrendDirection.bullish).2.2 = 0.95) ∧
    ((calculateAlignment TrendDirection.bullish TrendDirection.bullish
        TrendDirection.neutral).2.1 = TrendQuality.good ∧
      (calculateAlignment TrendDirection.bullish TrendDirection.bullish
        TrendDirection.neutral).2.2 = 0.80) ∧
    ((calculateAlignment TrendDirection.neutral TrendDirection.bullish
        TrendDirection.bullish).2.1 = TrendQuality.moderate ∧
      (calculateAlignment TrendDirection.neutral TrendDirection.bullish
        TrendDirection.bullish).2.2 = 0.65) ∧
    ((calculateAlignment TrendDirection.bullish TrendDirection.neutral
        TrendDirection.bearish).2.1 = TrendQuality.poor ∧
      (calculateAlignment TrendDirection.bullish TrendDirection.neutral
        TrendDirection.bearish).2.2 = 0.40) :=
  ⟨(trendAlignment_spec TrendDirection.bullish TrendDirection.strongBullish
      TrendDirection.bullish "normal").1 (by decide),
   (trendAlignment_spec TrendDirection.bullish TrendDirection.bullish
      TrendDirection.neutral "normal").2.1 (by decide) (by decide),
   (trendAlignment_spec TrendDirection.neutral TrendDirection.bullish
      TrendDirection.bullish "normal").2.2.1 (by decide) (by decide),
   (trendAlignment_spec TrendDirection.bullish TrendDirection.neutral
      TrendDirection.bearish "normal").2.2.2.1 (by decide) (by decide)⟩

/-- Helper for C6: the two-case slice taken by the rotation step equals the
modular-index batch whenever at most one wrap occurs
(start index + batch size ≤ 2·length). -/
theorem scoutBatch_eq_modular (C : List String) (s b : ℕ) (hs : s < C.length)
    (hwrap : s + b ≤ 2 * C.length) :
    (if s + b ≤ C.length then (C.drop s).take b
     else C.drop s ++ C.take (s + b - C.length)) = modularBatch C s b := by
  by_cases hc : s + b ≤ C.length
  · rw [if_pos hc]
    refine List.ext_getElem ?_ ?_
    · simp only [List.length_take, List.length_drop, modularBatch, List.length_map,
        List.length_range]
      omega
    · intro n h1 h2
      simp only [List.length_take, List.length_drop] at h1
      simp only [modularBatch, List.getElem_map, List.getElem_range]
      have hmod : (s + n) % C.length = s + n := Nat.mod_eq_of_lt (by omega)
      rw [hmod, List.getD_eq_getElem C "" (by omega)]
      simp only [List.getElem_take, List.getElem_drop]
  · rw [if_neg hc]
    refine List.ext_getElem ?_ ?_
    · simp only [List.length_append, List.length_drop, List.length_take, modularBatch,
        List.length_map, List.length_range]
      omega
    · intro n h1 h2
      simp only [List.length_append, List.length_drop, List.length_take] at h1
      simp only [modularBatch, List.length_map, List.length_range] at h2
      simp only [modularBatch, List.getElem_map, List.getElem_range]
      by_cases hn : n < C.length - s
      · rw [List.getElem_append_left (by simp only [List.length_drop]; omega)]
        simp only [List.getElem_drop]
        have hmod : (s + n) % C.length = s + n := Nat.mod_eq_of_lt (by omega)
        rw [hmod, List.getD_eq_getElem C "" (by omega)]
      · have hge : (C.drop s).length ≤ n := by simp only [List.length_drop]; omega
        rw [List.getElem_append_right hge]
        simp only [List.length_drop, List.getElem_take]
        have hmod : (s + n) % C.length = s + n - C.length := by
          rw [Nat.mod_eq_sub_mod (by omega)]
          exact Nat.mod_eq_of_lt (by omega)
        rw [hmod]
        rw [← List.getD_eq_getElem C "" (show n - (C.length - s) < C.length by omega)]
        have hidx : n - (C.length - s) = s + n - C.length := by omega
        rw [hidx]

/-- C6 counterexample: with candidate list ["A", "B"] (length 2), rotation
index 0 and batch size 5, the code's slice produces the 4-element batch
["A", "B", "A", "B"], not the 5 elements that `candidates[i..i+b]` under
modular indexing yields, so the claim fails for batch sizes that wrap the
list more than once. -/
theorem scoutRotation_counterexample :
    (scoutRotation ["A", "B"] 0 5).1 = ["A", "B", "A", "B"] ∧
    modularBatch ["A", "B"] (0 % 2) 5 = ["A", "B", "A", "B", "A"] ∧
    (scoutRotation ["A", "B"] 0 5).1 ≠ modularBatch ["A", "B"] (0 % 2) 5 := by
  refine ⟨rfl, rfl, by decide⟩

/-- C6 (amended): for a non-empty candidate list (the top-N selection minus
held symbols, so held symbols never appear), rotation index i and batch
size b with (i mod L) + b ≤ 2·L (at most one wrap past the end — in
particular any b ≤ L), the scout batch is candidates[i mod L .. (i mod L)+b]
with modular wrap-around, and the stored index afterwards is
((i mod L)+b) mod L. -/
theorem scoutRotation_spec (selected held : List String) (i b : ℕ)
    (hne : scoutCandidates selected held ≠ [])
    (hwrap : i % (scoutCandidates selected held).length + b ≤
      2 * (scoutCandidates selected held).length) :
    (scoutRotation (scoutCandidates selected held) i b).1 =
      modularBatch (scoutCandidates selected held)
        (i % (scoutCandidates selected held).length) b ∧
    (scoutRotation (scoutCandidates selected held) i b).2 =
      (i % (scoutCandidates selected held).length + b) %
        (scoutCandidates selected held).length ∧
    ∀ s ∈ held, s ∉ (scoutRotation (scoutCandidates selected held) i b).1 := by
  have hL : 0 < (scoutCandidates selected held).length := List.length_pos.mpr hne
  have hE : (scoutCandidates selected held).isEmpty = false := by
    cases hcc : scoutCandidates selected held
    · exact absurd hcc hne
    · rfl
  have h1 : (scoutRotation (scoutCandidates selected held) i b).1 =
      modularBatch (scoutCandidates selected held)
        (i % (scoutCandidates selected held).length) b := by
    simp only [scoutRotation, hE, Bool.false_eq_true, if_false]
    exact scoutBatch_eq_modular _ _ b (Nat.mod_lt _ hL) hwrap
  refine ⟨h1, ?_, ?_⟩
  · simp only [scoutRotation, hE, Bool.false_eq_true, if_false]
  · intro s hs hmem
    rw [h1] at hmem
    simp only [modularBatch, List.mem_map] at hmem
    obtain ⟨j, _, hjs⟩ := hmem
    have hb : (i % (scoutCandidates selected held).length + j) %
        (scoutCandidates selected held).length < (scoutCandidates selected held).length :=
      Nat.mod_lt _ hL
    rw [List.getD_eq_getElem _ "" hb] at hjs
    have hin : s ∈ scoutCandidates selected held := hjs ▸ List.getElem_mem hb
    simp only [scoutCandidates, List.mem_filter, Bool.not_eq_true'] at hin
    exact absurd hs (by simpa using hin.2)

/-- Witness for C6: selected = ["A","B","C"], held = ["B"] gives candidates
["A","C"]; with index 0 and batch size 2 the batch matches the modular
slice and the held symbol "B" is not in it. -/
theorem scoutRotation_spec_witness :
    (scoutRotation (scoutCandidates ["A", "B", "C"] ["B"]) 0 2).1 =
      modularBatch (scoutCandidates ["A", "B", "C"] ["B"])
        (0 % (scoutCandidates ["A", "B", "C"] ["B"]).length) 2 ∧
    "B" ∉ (scoutRotation (scoutCandidates ["A", "B", "C"] ["B"]) 0 2).1 :=
  let h := scoutRotation_spec ["A", "B", "C"] ["B"] 0 2 (by decide) (by decide)
  ⟨h.1, h.2.2 "B" (by decide)⟩

/-- Helper: characterization of `List.min?` over rationals. -/
theorem rat_min_eq_some_iff {a : ℚ} {xs : List ℚ} :
    xs.min? = some a ↔ a ∈ xs ∧ ∀ b ∈ xs, a ≤ b :=
  List.min?_eq_some_iff (fun a => le_refl a) (fun a b => min_choice a b)
    (fun _ _ _ => le_min_iff)

/-- Helper: characterization of `List.max?` over rationals. -/
theorem rat_max_eq_some_iff {a : ℚ} {xs : List ℚ} :
    xs.max? = some a ↔ a ∈ xs ∧ ∀ b ∈ xs, b ≤ a :=
  List.max?_eq_some_iff (fun a => le_refl a) (fun a b => max_choice a b)
    (fun _ _ _ => max_le_iff)

/-- C8 counterexample: with the primary venue reporting funding rate 0.01
and one provider reporting funding rate exactly 0, both with price 100,
the code's `average_funding_rate` is 0.01 (the reported 0 is dropped by
the truthiness filter), while the mean of the reported funding rates is
0.005. -/
theorem aggregates_funding_counterexample :
    (calculateAggregates (SrcResult.ok ⟨some 100, none, some (1/100)⟩)
        [SrcResult.ok ⟨some 100, none, some 0⟩]).map (fun a => a.averageFundingRate) =
      some (1/100) ∧
    (reportedField (fun d => d.fundingRate)
        (SrcResult.ok ⟨some 100, none, some (1/100)⟩ ::
          [SrcResult.ok ⟨some 100, none, some 0⟩])).sum /
      ((reportedField (fun d => d.fundingRate)
        (SrcResult.ok ⟨some 100, none, some (1/100)⟩ ::
          [SrcResult.ok ⟨some 100, none, some 0⟩])).length : ℚ) = 1/200 ∧
    (1/100 : ℚ) ≠ 1/200 := by
  refine ⟨?_, ?_, by norm_num⟩
  · have hfr : collectField (fun d => d.fundingRate)
        (SrcResult.ok ⟨some 100, none, some (1/100)⟩ ::
          [SrcResult.ok ⟨some 100, none, some 0⟩]) = [1/100] := by
      norm_num [collectField, truthyNum, List.filterMap_cons]
    have hpr : collectField (fun d => d.price)
        (SrcResult.ok ⟨some 100, none, some (1/100)⟩ ::
          [SrcResult.ok ⟨some 100, none, some 0⟩]) = [100, 100] := by
      norm_num [collectField, truthyNum, List.filterMap_cons]
    simp only [calculateAggregates, hpr, hfr]
    norm_num
    exact ⟨_, ⟨by simp, rfl⟩, rfl⟩
  · norm_num [reportedField, List.filterMap_cons]

/-- C8 (amended): when no source yields a usable (nonzero) price the
aggregate is `insufficient_data`; otherwise the aggregate's average, min,
max, spread, total volume, primary-venue deviation and premium flag are as
the claim states over the collected values, with the one amendment that
`average_funding_rate` is the mean of the collected **nonzero** funding
rates (a rate reported as exactly 0 is dropped by the truthiness filter),
and 0 when none remain. -/
theorem calculateAggregates_spec (hl : SrcResult) (provs : List SrcResult) :
    (collectField (fun d => d.price) (hl :: provs) = [] →
      calculateAggregates hl provs = none) ∧
    (∀ a, calculateAggregates hl provs = some a →
      collectField (fun d => d.price) (hl :: provs) ≠ [] ∧
      a.averagePrice * (collectField (fun d => d.price) (hl :: provs)).length =
        (collectField (fun d => d.price) (hl :: provs)).sum ∧
      a.minPrice ∈ collectField (fun d => d.price) (hl :: provs) ∧
      (∀ x ∈ collectField (fun d => d.price) (hl :: provs), a.minPrice ≤ x) ∧
      a.maxPrice ∈ collectField (fun d => d.price) (hl :: provs) ∧
      (∀ x ∈ collectField (fun d => d.price) (hl :: provs), x ≤ a.maxPrice) ∧
      (0 < a.minPrice →
        a.priceSpreadPct = (a.maxPrice - a.minPrice) / a.minPrice * 100) ∧
      a.totalVolumeGlobal = (collectField (fun d => d.volume24h) (hl :: provs)).sum ∧
      (collectField (fun d => d.fundingRate) (hl :: provs) = [] →
        a.averageFundingRate = 0) ∧
      (collectField (fun d => d.fundingRate) (hl :: provs) ≠ [] →
        a.averageFundingRate *
            (collectField (fun d => d.fundingRate) (hl :: provs)).length =
          (collectField (fun d => d.fundingRate) (hl :: provs)).sum) ∧
      (∀ dd hp, hl = SrcResult.ok dd → dd.price = some hp → 0 < a.averagePrice →
        a.hyperliquidDeviationPct =
          some ((hp - a.averagePrice) / a.averagePrice * 100)) ∧
      (∀ dev, a.hyperliquidDeviationPct = some dev →
        (a.isHyperliquidPremium = some true ↔ 0 < dev))) := by
  constructor
  · intro hp
    simp only [calculateAggregates, hp, if_pos]
  · intro a ha
    by_cases hp : collectField (fun d => d.price) (hl :: provs) = []
    · simp [calculateAggregates, hp] at ha
    · simp only [calculateAggregates, if_neg hp, Option.some.injEq] at ha
      subst ha
      have hlpos : 0 < (collectField (fun d => d.price) (hl :: provs)).length :=
        List.length_pos.mpr hp
      have hlne : ((collectField (fun d => d.price) (hl :: provs)).length : ℚ) ≠ 0 := by
        exact_mod_cast Nat.pos_iff_ne_zero.mp hlpos
      obtain ⟨mn, hmn⟩ : ∃ mn, (collectField (fun d => d.price) (hl :: provs)).min? = some mn := by
        cases hq : (collectField (fun d => d.price) (hl :: provs)).min? with
        | none => exact absurd (List.min?_eq_none_iff.mp hq) hp
        | some m => exact ⟨m, rfl⟩
      obtain ⟨mx, hmx⟩ : ∃ mx, (collectField (fun d => d.price) (hl :: provs)).max? = some mx := by
        cases hq : (collectField (fun d => d.price) (hl :: provs)).max? with
        | none =>
          have : collectField (fun d => d.price) (hl :: provs) = [] := by
            cases hqq : collectField (fun d => d.price) (hl :: provs) with
            | nil => rfl
            | cons x xs => rw [hqq] at hq; simp [List.max?] at hq
          exact absurd this hp
        | some m => exact ⟨m, rfl⟩
      have hmn2 := rat_min_eq_some_iff.mp hmn
      have hmx2 := rat_max_eq_some_iff.mp hmx
      refine ⟨hp, ?_, ?_, ?_, ?_, ?_, ?_, ?_, ?_, ?_, ?_, ?_⟩
      · simp only [div_mul_cancel₀ _ hlne]
      · simp only [hmn, Option.getD_some]
        exact hmn2.1
      · intro x hx
        simp only [hmn, Option.getD_some]
        exact hmn2.2 x hx
      · simp only [hmx, Option.getD_some]
        exact hmx2.1
      · intro x hx
        simp only [hmx, Option.getD_some]
        exact hmx2.2 x hx
      · intro h0
        simp only [hmn, hmx, Option.getD_some] at h0 ⊢
        rw [if_pos h0]
      · rfl
      · intro hf
        simp only [hf, if_pos]
      · intro hf
        rw [if_neg hf]
        have hfne : ((collectField (fun d => d.fundingRate) (hl :: provs)).length : ℚ) ≠ 0 := by
          exact_mod_cast Nat.pos_iff_ne_zero.mp (List.length_pos.mpr hf)
        simp only [div_mul_cancel₀ _ hfne]
      · intro dd hpv hhl hpeq havg
        subst hhl
        simp only [hpeq]
        rw [if_pos havg]
      · intro dev hdev
        simp only [hdev] at *
        cases hcase : (match hl with
          | SrcResult.ok d =>
            match d.price with
            | some hp =>
              if (collectField (fun d => d.price) (hl :: provs)).sum /
                  ((collectField (fun d => d.price) (hl :: provs)).length : ℚ) > 0 then
                some ((hp - (collectField (fun d => d.price) (hl :: provs)).sum /
                  ((collectField (fun d => d.price) (hl :: provs)).length : ℚ)) /
                  ((collectField (fun d => d.price) (hl :: provs)).sum /
                  ((collectField (fun d => d.price) (hl :: provs)).length : ℚ)) * 100)
              else none
            | none => none
          | SrcResult.err => none) with
        | none => simp [hcase] at hdev
        | some v =>
          rw [hcase] at hdev
          simp only [Option.some.injEq] at hdev
          subst hdev
          simp [hcase, decide_eq_true_iff]

/-- Witness for C8: with a failed primary fetch and no providers, no
usable price is collected and the aggregate is `insufficient_data`. -/
theorem calculateAggregates_spec_witness :
    calculateAggregates SrcResult.err [] = none :=
  (calculateAggregates_spec SrcResult.err []).1 rfl

end Lancilotto
